import Mathlib

/-!
Verification of the code-vault similarity/deduplication engine.

The development shallowly embeds the similarity core of the repository:
* namespace `Server`: the Express backend's similarity engine
  (`analyzeSimilarity`, `calculateSimilarity`, `tokenizeCode`,
  `getSimilarityReason`, `getCodeContext`).
* namespace `Ext`: the editor extension's duplicate guard
  (`generateCodeHash`, `simpleHash`, `calculateCodeSimilarity`,
  `isCodeAlreadyInVault`, `isDuplicateCode`, and the capture flow
  `processCodeCapture`/`saveSnippetToVault` as a state-passing `submit`).
* namespace `App`: the desktop renderer's local fallback analysis
  (`performLocalAnalysis` and its helpers).

JavaScript `Set` values are modelled as duplicate-free lists in insertion
order (`jsSetOf`), JavaScript's stable `Array.prototype.sort` with the
comparator `(a, b) => b.confidence - a.confidence` is modelled as the
stable insertion sort `jsSortDesc`, and JavaScript numbers arising from
`size / size` divisions are modelled as exact rationals.
-/

/-- A stored snippet record.  All three components of the repository declare
the same shape (`id`, `title`, `code`, `language`, `description?`, `tags`,
`createdAt`); only `code` participates in similarity computations. -/
structure Snippet where
  id : String
  title : String
  code : String
  language : String
  description : Option String
  tags : List String
  createdAt : String
deriving DecidableEq

/-- A derived suggestion, as in the `AISuggestion` interface. -/
structure AISuggestion where
  snippet : Snippet
  reason : String
  confidence : ℚ
  context : String
deriving DecidableEq

/-- `\w` of JavaScript regular expressions: ASCII letters, digits, underscore. -/
def isWordChar (c : Char) : Bool := c.isAlphanum || c == '_'

/-- `String.prototype.toLowerCase`, character by character (the inputs under
consideration are ASCII). -/
def jsToLower (s : String) : String := ⟨s.data.map Char.toLower⟩

/-- Split a character list at every character satisfying `p`, keeping empty
pieces — the semantics of JavaScript `String.prototype.split` on a
single-character regular expression class. -/
def splitChars (p : Char → Bool) : List Char → List (List Char)
  | [] => [[]]
  | c :: cs =>
    if p c then [] :: splitChars p cs
    else
      match splitChars p cs with
      | [] => [[c]]
      | t :: ts => (c :: t) :: ts

/-- String-level wrapper for `splitChars`. -/
def jsSplit (s : String) (p : Char → Bool) : List String :=
  (splitChars p s.data).map fun cs => ⟨cs⟩

/-- First-occurrence deduplication worker; `seen` holds already-kept
elements. -/
def jsSetAux (seen : List String) : List String → List String
  | [] => []
  | x :: xs => if seen.contains x then jsSetAux seen xs else x :: jsSetAux (x :: seen) xs

/-- `new Set(list)` of JavaScript, as the list of first occurrences in
insertion order. -/
def jsSetOf (l : List String) : List String := jsSetAux [] l

/-- The descending-confidence ordering used by the JavaScript comparator
`(a, b) => b.confidence - a.confidence`: `x` may precede `y` iff
`key y ≤ key x`. -/
abbrev confRel {α : Type} (key : α → ℚ) (x y : α) : Prop := key y ≤ key x

instance {α : Type} (key : α → ℚ) : IsTotal α (confRel key) :=
  ⟨fun a b => le_total (key b) (key a)⟩

instance {α : Type} (key : α → ℚ) : IsTrans α (confRel key) :=
  ⟨fun _ _ _ h1 h2 => le_trans h2 h1⟩

/-- JavaScript's stable sort under the comparator
`(a, b) => key b - key a`, modelled as stable insertion sort. -/
def jsSortDesc {α : Type} (key : α → ℚ) (l : List α) : List α :=
  l.insertionSort (confRel key)

namespace Server

/-- The stoplist of language-structural keywords removed by the backend's
tokenizer. -/
def stoplist : List String :=
  ["function", "const", "let", "var", "if", "else", "for", "while",
   "return", "class", "import", "export"]

/-- `tokenizeCode` of the backend: lower-case, split on every non-word
character, keep tokens of length `> 2` that are not stoplisted. -/
def tokenizeCode (code : String) : List String :=
  ((jsSplit (jsToLower code) fun c => !isWordChar c).filter
      fun token => token.length > 2).filter
    fun token => !stoplist.contains token

/-- `calculateSimilarity` of the backend: Jaccard similarity of the two
token sets, with an empty union mapped to `0`. -/
def calculateSimilarity (code1 code2 : String) : ℚ :=
  let set1 := jsSetOf (tokenizeCode code1)
  let set2 := jsSetOf (tokenizeCode code2)
  let intersection := set1.filter fun x => set2.contains x
  let union := jsSetOf (set1 ++ set2)
  if union.length = 0 then 0 else mkRat intersection.length union.length

/-- `getSimilarityReason` of the backend. -/
def getSimilarityReason (similarity : ℚ) : String :=
  if similarity > mkRat 7 10 then "Very similar implementation"
  else if similarity > mkRat 5 10 then "Similar logic and structure"
  else if similarity > mkRat 3 10 then "Related code patterns"
  else "Some common elements"

/-- The `common` intermediate of `getCodeContext`: the snippet's token set
filtered to tokens also present in the current code's token set. -/
def commonTokens (snippetCode currentCode : String) : List String :=
  (jsSetOf (tokenizeCode snippetCode)).filter
    fun token => (jsSetOf (tokenizeCode currentCode)).contains token

/-- `getCodeContext` of the backend. -/
def getCodeContext (snippetCode currentCode : String) : String :=
  let common := commonTokens snippetCode currentCode
  if common.length > 0 then
    "Common patterns: " ++ String.intercalate ", " (common.take 3)
  else
    "Structural similarity detected"

/-- The suggestion list built by `analyzeSimilarity`'s loop, before sorting
and truncation: one suggestion per corpus snippet whose similarity strictly
exceeds `0.3`, in corpus order. -/
def rankCandidates (currentCode : String) (snippets : List Snippet) : List AISuggestion :=
  snippets.filterMap fun snippet =>
    let similarity := calculateSimilarity currentCode snippet.code
    if similarity > mkRat 3 10 then
      some { snippet := snippet
             reason := getSimilarityReason similarity
             confidence := similarity
             context := getCodeContext snippet.code currentCode }
    else none

/-- `analyzeSimilarity` of the backend: filter, stable-sort by descending
confidence, truncate to the first 5. -/
def analyzeSimilarity (currentCode : String) (snippets : List Snippet) : List AISuggestion :=
  (jsSortDesc (fun s => s.confidence) (rankCandidates currentCode snippets)).take 5

end Server

namespace Ext

/-- JavaScript `\s` restricted to the ASCII range (space, tab, newline,
carriage return, vertical tab, form feed). -/
def isJsSpace (c : Char) : Bool :=
  c == ' ' || c == '\t' || c == '\n' || c == '\r' || c == '\x0b' || c == '\x0c'

/-- Worker for `.replace(/\/\/.*$/gm, '')` with an explicit step budget.
Every step consumes at least one character, so a budget of the input length
never runs out. -/
def stripLineCommentsF : Nat → List Char → List Char
  | _, [] => []
  | 0, l => l
  | fuel + 1, '/' :: '/' :: rest =>
    stripLineCommentsF fuel (rest.dropWhile fun c => c != '\n')
  | fuel + 1, c :: rest => c :: stripLineCommentsF fuel rest

/-- `.replace(/\/\/.*$/gm, '')`: delete from each `//` to the end of its
line, keeping the newline. -/
def stripLineComments (l : List Char) : List Char := stripLineCommentsF l.length l

/-- Scan for the first `*/`; `some rest` is the text after it, `none` means
the block comment never closes (so the regex does not match). -/
def scanBlockClose : List Char → Option (List Char)
  | [] => none
  | '*' :: '/' :: rest => some rest
  | _ :: rest => scanBlockClose rest

/-- Worker for `.replace(/\/\*[\s\S]*?\*\//g, '')` with a step budget. -/
def stripBlockCommentsF : Nat → List Char → List Char
  | _, [] => []
  | 0, l => l
  | fuel + 1, '/' :: '*' :: rest =>
    match scanBlockClose rest with
    | some rest2 => stripBlockCommentsF fuel rest2
    | none => '/' :: '*' :: rest
  | fuel + 1, c :: rest => c :: stripBlockCommentsF fuel rest

/-- `.replace(/\/\*[\s\S]*?\*\//g, '')`: delete each non-greedy block
comment; an unclosed `/*` is left in place. -/
def stripBlockComments (l : List Char) : List Char := stripBlockCommentsF l.length l

/-- `.replace(/\s+/g, ' ')`: collapse every whitespace run (newlines
included) to a single space; `prevSpace` records whether the previous
character belonged to a run already collapsed. -/
def collapseWsAux (prevSpace : Bool) : List Char → List Char
  | [] => []
  | c :: rest =>
    if isJsSpace c then
      if prevSpace then collapseWsAux true rest
      else ' ' :: collapseWsAux true rest
    else c :: collapseWsAux false rest

/-- Scan a quoted literal body `([^q\\]|\\.)*` for its closing quote `q`;
`some rest` is the text after the closing quote. -/
def scanStringEnd (q : Char) : List Char → Option (List Char)
  | [] => none
  | c :: rest =>
    if c == q then some rest
    else if c == '\\' then
      match rest with
      | [] => none
      | _ :: rest2 => scanStringEnd q rest2
    else scanStringEnd q rest

/-- Worker for the quoted-literal normalization
`.replace(/"([^"\\]|\\.)*"/g, '""')` (and its single-quote twin) with a
step budget. -/
def replaceQuotedF (q : Char) : Nat → List Char → List Char
  | _, [] => []
  | 0, l => l
  | fuel + 1, c :: rest =>
    if c == q then
      match scanStringEnd q rest with
      | some rest2 => q :: q :: replaceQuotedF q fuel rest2
      | none => c :: replaceQuotedF q fuel rest
    else c :: replaceQuotedF q fuel rest

/-- Replace every quoted string literal's contents, leaving only the two
quote characters. -/
def replaceQuoted (q : Char) (l : List Char) : List Char := replaceQuotedF q l.length l

/-- Whether the character left of the current position is a word character
(`none` stands for the start of the string, where `\b` holds before a word
character). -/
def isPrevWord : Option Char → Bool
  | none => false
  | some c => isWordChar c

/-- Worker for `.replace(/\b\d+\b/g, '0')` with a step budget: a maximal
digit run is replaced by `0` exactly when the characters on both sides are
not word characters. -/
def replaceNumsF : Nat → Option Char → List Char → List Char
  | _, _, [] => []
  | 0, _, l => l
  | fuel + 1, prev, c :: rest =>
    if c.isDigit && !isPrevWord prev then
      let run := (c :: rest).takeWhile Char.isDigit
      let after := (c :: rest).dropWhile Char.isDigit
      let kept :=
        match after.head? with
        | some a => if isWordChar a then run else ['0']
        | none => ['0']
      kept ++ replaceNumsF fuel (some (run.getLastD c)) after
    else c :: replaceNumsF fuel (some c) rest

/-- `.replace(/\b\d+\b/g, '0')`. -/
def replaceNums (l : List Char) : List Char := replaceNumsF l.length none l

/-- `String.prototype.trim` (ASCII whitespace). -/
def trimChars (l : List Char) : List Char :=
  ((l.dropWhile isJsSpace).reverse.dropWhile isJsSpace).reverse

/-- The `normalizeCode` closure inside the extension's
`calculateCodeSimilarity`: lower-case, strip line then block comments,
collapse every whitespace run (newlines included) to a single space,
blank out string literals, normalize standalone integers, trim. -/
def normalizeCode (code : String) : String :=
  ⟨trimChars (replaceNums (replaceQuoted '\'' (replaceQuoted '"'
    (collapseWsAux false (stripBlockComments (stripLineComments (jsToLower code).data))))))⟩

/-- The normalization inside `generateCodeHash`: as `normalizeCode`, but
whitespace is removed outright (`/\s+/g` → `''`) and there is no trim. -/
def hashNormalize (code : String) : String :=
  ⟨replaceNums (replaceQuoted '\'' (replaceQuoted '"'
    ((stripBlockComments (stripLineComments (jsToLower code).data)).filter
      fun c => !isJsSpace c)))⟩

/-- Wrap an integer to JavaScript's 32-bit two's-complement range, as the
`hash = hash & hash` coercion does. -/
def toInt32 (n : ℤ) : ℤ := (n + 2 ^ 31) % 2 ^ 32 - 2 ^ 31

/-- One step of `simpleHash`: `hash = ((hash << 5) - hash) + charCode;
hash = hash & hash`. -/
def simpleHashStep (hash : ℤ) (c : Char) : ℤ :=
  toInt32 (toInt32 (hash * 32) - hash + c.toNat)

/-- Digit characters for `Number.prototype.toString(36)`. -/
def digitChar36 (n : Nat) : Char :=
  if n < 10 then Char.ofNat (48 + n) else Char.ofNat (87 + n)

/-- Base-36 digit expansion with a step budget (the budget `n` is ample:
the loop halves `n` at least every step). -/
def toBase36F : Nat → Nat → List Char → List Char
  | 0, _, acc => acc
  | fuel + 1, n, acc =>
    if n = 0 then acc else toBase36F fuel (n / 36) (digitChar36 (n % 36) :: acc)

/-- `Number.prototype.toString(36)` for a natural number. -/
def toBase36 (n : Nat) : String :=
  if n = 0 then "0" else ⟨toBase36F n n []⟩

/-- `simpleHash` of the extension: the classical 31-multiplier string hash
over 32-bit integers, printed as base-36 of its absolute value. -/
def simpleHash (s : String) : String :=
  toBase36 (s.data.foldl simpleHashStep 0).natAbs

/-- `generateCodeHash` of the extension. -/
def generateCodeHash (code : String) : String := simpleHash (hashNormalize code)

/-- `calculateCodeSimilarity` of the extension: Jaccard similarity of the
sets of normalized lines longer than 5 characters.  Note that
`normalizeCode` has already collapsed newlines, so the split can only ever
produce a single line. -/
def calculateCodeSimilarity (code1 code2 : String) : ℚ :=
  let normalized1 := normalizeCode code1
  let normalized2 := normalizeCode code2
  let lines1 := jsSetOf ((jsSplit normalized1 fun c => c == '\n').filter
    fun line => line.length > 5)
  let lines2 := jsSetOf ((jsSplit normalized2 fun c => c == '\n').filter
    fun line => line.length > 5)
  let intersection := lines1.filter fun line => lines2.contains line
  let union := jsSetOf (lines1 ++ lines2)
  if union.length = 0 then 0 else mkRat intersection.length union.length

/-- The cache loop of `isCodeAlreadyInVault`: per snippet, an exact
fingerprint comparison followed by the `> 0.8` near-duplicate check. -/
def cacheHit (code : String) (cache : List Snippet) : Bool :=
  cache.any fun snippet =>
    generateCodeHash code == generateCodeHash snippet.code ||
    calculateCodeSimilarity code snippet.code > mkRat 8 10

/-- `isCodeAlreadyInVault` of the extension.  The fallback call to the
server's analyze endpoint is modelled by the boolean
`serverHighlySimilar` (whether the server reported a suggestion with
confidence above `0.8`); a failed request behaves as `false`. -/
def isCodeAlreadyInVault (code : String) (cache : List Snippet)
    (serverHighlySimilar : Bool) : Bool :=
  if cacheHit code cache then true else serverHighlySimilar

/-- `isDuplicateCode` of the extension: raw membership of the argument in
the `recentlyProcessed` set. -/
def isDuplicateCode (codeOrHash : String) (recentlyProcessed : List String) : Bool :=
  recentlyProcessed.contains codeOrHash

/-- Possible outcomes of one capture attempt. -/
inductive CaptureOutcome
  | vaultDup
  | recentPre
  | recentHash
  | saved
deriving DecidableEq

/-- Whether an outcome is a duplicate verdict caused by the
recently-processed set. -/
def CaptureOutcome.isRecentDup : CaptureOutcome → Bool
  | recentPre => true
  | recentHash => true
  | _ => false

/-- The recently-processed entries still alive at time `now`: each entry
carries the expiry instant scheduled by
`setTimeout(() => recentlyProcessed.delete(codeHash), 60000)`. -/
def activeHashes (recent : List (String × Nat)) (now : Nat) : List String :=
  (recent.filter fun entry => now < entry.2).map fun entry => entry.1

/-- The capture flow `processCodeCapture` → `saveSnippetToVault` as a pure
state-passing function: check the vault (cache plus server), then the
pre-save `isDuplicateCode(code)` check on the raw code, then the
`isDuplicateCode(codeHash)` check inside `saveSnippetToVault`; a saved
snippet's fingerprint is added with expiry `now + 60000`.  The network
POST itself is elided; the corpus cache is the explicit `cache` argument. -/
def submit (code : String) (cache : List Snippet) (serverHighlySimilar : Bool)
    (recent : List (String × Nat)) (now : Nat) :
    CaptureOutcome × List (String × Nat) :=
  if isCodeAlreadyInVault code cache serverHighlySimilar then
    (.vaultDup, recent)
  else if isDuplicateCode code (activeHashes recent now) then
    (.recentPre, recent)
  else
    let codeHash := generateCodeHash code
    if isDuplicateCode codeHash (activeHashes recent now) then
      (.recentHash, recent)
    else
      (.saved, (codeHash, now + 60000) :: recent)

end Ext

namespace App

/-- The renderer's `isCommonToken` stoplist (the backend's plus `from`). -/
def isCommonToken (token : String) : Bool :=
  ["function", "const", "let", "var", "if", "else", "for", "while",
   "return", "class", "import", "export", "from"].contains token

/-- `tokenizeCode` of the desktop renderer: lower-case, split on non-word
characters, keep tokens of length `> 2` that are not common, delete digits
from each token, keep tokens of length `> 1`. -/
def tokenizeCode (code : String) : List String :=
  (((jsSplit (jsToLower code) fun c => !isWordChar c).filter
        fun token => token.length > 2 && !isCommonToken token).map
      fun token => (⟨token.data.filter fun c => !c.isDigit⟩ : String)).filter
    fun token => token.length > 1

/-- `calculateCodeSimilarity` of the renderer: Jaccard similarity of the
two token sets, empty union mapped to `0`. -/
def calculateCodeSimilarity (code1 code2 : String) : ℚ :=
  let set1 := jsSetOf (tokenizeCode code1)
  let set2 := jsSetOf (tokenizeCode code2)
  let intersection := set1.filter fun x => set2.contains x
  let union := jsSetOf (set1 ++ set2)
  if union.length = 0 then 0 else mkRat intersection.length union.length

/-- `getSimilarityReason` of the renderer. -/
def getSimilarityReason (similarity : ℚ) : String :=
  if similarity > mkRat 7 10 then "Very similar code structure and logic"
  else if similarity > mkRat 5 10 then "Similar implementation approach"
  else if similarity > mkRat 3 10 then "Related code patterns"
  else "Some common elements"

/-- `detectContext` of the renderer (token arrays, not sets). -/
def detectContext (snippetCode currentCode : String) : String :=
  let commonPatterns := (tokenizeCode snippetCode).filter
    fun token => (tokenizeCode currentCode).contains token && token.length > 3
  if commonPatterns.length > 0 then
    "Uses similar patterns: " ++ String.intercalate ", " (commonPatterns.take 3)
  else
    "Similar coding style or structure"

/-- The suggestion list accumulated by `performLocalAnalysis`'s `forEach`,
before sorting and truncation. -/
def localCandidates (code : String) (snippets : List Snippet) : List AISuggestion :=
  snippets.filterMap fun snippet =>
    let similarity := calculateCodeSimilarity code snippet.code
    if similarity > mkRat 3 10 then
      some { snippet := snippet
             reason := getSimilarityReason similarity
             confidence := similarity
             context := detectContext snippet.code code }
    else none

/-- `performLocalAnalysis` of the renderer, as the list it passes to
`setAiSuggestions`: filter by `> 0.3`, stable-sort by descending
confidence, take the top 3. -/
def performLocalAnalysis (code : String) (snippets : List Snippet) : List AISuggestion :=
  (jsSortDesc (fun s => s.confidence) (localCandidates code snippets)).take 3

end App

namespace SpecModel

/-- Stage-2 normalization as the specification words it (spec §4.4): the
same normalization as stage 1 — lower-case, strip line and block comments,
collapse whitespace to nothing, blank string literals, normalize standalone
integers — except that newlines are NOT collapsed.  This definition follows
the specification's words and exists to be compared with the source's
`Ext.calculateCodeSimilarity`. -/
def specNormalize (code : String) : String :=
  ⟨Ext.replaceNums (Ext.replaceQuoted '\'' (Ext.replaceQuoted '"'
    ((Ext.stripBlockComments (Ext.stripLineComments (jsToLower code).data)).filter
      fun c => c == '\n' || !Ext.isJsSpace c)))⟩

/-- Stage-2 line-set Jaccard similarity as the specification words it:
split the stage-2-normalized text into lines, keep lines longer than 5
characters, take the Jaccard similarity of the two line sets. -/
def specLineSimilarity (code1 code2 : String) : ℚ :=
  let lines1 := jsSetOf ((jsSplit (specNormalize code1) fun c => c == '\n').filter
    fun line => line.length > 5)
  let lines2 := jsSetOf ((jsSplit (specNormalize code2) fun c => c == '\n').filter
    fun line => line.length > 5)
  let intersection := lines1.filter fun line => lines2.contains line
  let union := jsSetOf (lines1 ++ lines2)
  if union.length = 0 then 0 else mkRat intersection.length union.length

end SpecModel

set_option maxRecDepth 100000

/-- A sample corpus snippet used to instantiate universally quantified
theorems at concrete inputs. -/
def snippetAlpha : Snippet :=
  ⟨"1", "alpha snippet", "alpha beta gamma", "javascript", none, [], "2024-01-01"⟩

/-- The suggestion the backend produces for `snippetAlpha` against the
query `"alpha beta gamma"`. -/
def sugAlpha : AISuggestion :=
  ⟨snippetAlpha, "Very similar implementation", 1, "Common patterns: alpha, beta, gamma"⟩

/-- The suggestion the renderer's local analysis produces for
`snippetAlpha` against the query `"alpha beta gamma"`. -/
def sugAlphaApp : AISuggestion :=
  ⟨snippetAlpha, "Very similar code structure and logic", 1,
    "Uses similar patterns: alpha, beta, gamma"⟩

/-- A snippet whose code is `"const   x=2;"`. -/
def snippetConstX : Snippet :=
  ⟨"2", "const snippet", "const   x=2;", "javascript", none, [], "2024-01-01"⟩

/-- A candidate of ten newline-separated lines, each longer than 5
characters. -/
def candTen : String :=
  "aaaqqq\nbbbqqq\ncccqqq\ndddqqq\neeeqqq\nfffqqq\ngggqqq\nhhhqqq\niiiqqq\njjjqqq"

/-- The same text as `candTen` without its last line: the two share 9 of
the candidate's 10 lines. -/
def snipNine : String :=
  "aaaqqq\nbbbqqq\ncccqqq\ndddqqq\neeeqqq\nfffqqq\ngggqqq\nhhhqqq\niiiqqq"

/-- A snippet storing `snipNine`. -/
def snippetNine : Snippet :=
  ⟨"3", "nine lines", snipNine, "javascript", none, [], "2024-01-01"⟩

theorem jsSortDesc_perm {α : Type} (key : α → ℚ) (l : List α) :
    (jsSortDesc key l).Perm l :=
  List.perm_insertionSort _ l

theorem jsSortDesc_sorted {α : Type} (key : α → ℚ) (l : List α) :
    List.Sorted (confRel key) (jsSortDesc key l) :=
  List.sorted_insertionSort _ l

theorem jsSortDesc_filter_eq {α : Type} (key : α → ℚ) (c : ℚ) (l : List α) :
    (jsSortDesc key l).filter (fun x => decide (key x = c)) =
      l.filter fun x => decide (key x = c) := by
  have hpw : (l.filter fun x => decide (key x = c)).Pairwise (confRel key) := by
    refine List.pairwise_of_forall_mem_list ?_
    intro a ha b hb
    have ha' := (List.mem_filter.mp ha).2
    have hb' := (List.mem_filter.mp hb).2
    simp only [decide_eq_true_eq] at ha' hb'
    simp [confRel, ha', hb']
  have h1 : List.Sublist (l.filter fun x => decide (key x = c)) (jsSortDesc key l) :=
    List.sublist_insertionSort hpw (List.filter_sublist l)
  have h3 : List.Sublist (l.filter fun x => decide (key x = c))
      ((jsSortDesc key l).filter fun x => decide (key x = c)) := by
    have h2 := h1.filter fun x => decide (key x = c)
    simpa using h2
  have hlen : ((jsSortDesc key l).filter fun x => decide (key x = c)).length =
      (l.filter fun x => decide (key x = c)).length :=
    ((jsSortDesc_perm key l).filter _).length_eq
  exact (h3.eq_of_length hlen.symm).symm

/-- Bridge between the kernel-friendly `mkRat` thresholds of the
definitions and the fractional literals used in the claims. -/
theorem mkRat_three_tenths : mkRat 3 10 = (3 : ℚ) / 10 := by
  norm_num [mkRat, Rat.normalize]

/-- C7: the similarity scorer is total on empty inputs: whenever both
inputs produce no tokens (so intersection and union are empty), the score
is exactly `0`, with no division by zero. -/
theorem calculateSimilarity_empty_union (code1 code2 : String)
    (h1 : Server.tokenizeCode code1 = []) (h2 : Server.tokenizeCode code2 = []) :
    Server.calculateSimilarity code1 code2 = 0 := by
  simp [Server.calculateSimilarity, h1, h2, jsSetOf, jsSetAux]

/-- Witness for C7 at the concrete inputs `""` and `"a b!"`, both of which
tokenize to nothing. -/
theorem calculateSimilarity_empty_union_w :
    Server.tokenizeCode "" = [] ∧ Server.tokenizeCode "a b!" = [] ∧
      Server.calculateSimilarity "" "a b!" = 0 :=
  ⟨by decide, by decide, calculateSimilarity_empty_union "" "a b!" (by decide) (by decide)⟩

/-- C8: the explanation generator reports the first (at most 3) common
tokens joined by `", "` after `"Common patterns: "` when the two token
sets intersect, and the fixed string `"Structural similarity detected"`
when they do not. -/
theorem getCodeContext_spec (snippetCode currentCode : String) :
    (Server.commonTokens snippetCode currentCode = [] →
        Server.getCodeContext snippetCode currentCode = "Structural similarity detected") ∧
      (Server.commonTokens snippetCode currentCode ≠ [] →
        Server.getCodeContext snippetCode currentCode =
          "Common patterns: " ++
            String.intercalate ", " ((Server.commonTokens snippetCode currentCode).take 3)) := by
  constructor
  · intro h
    simp [Server.getCodeContext, h]
  · intro h
    have hpos : 0 < (Server.commonTokens snippetCode currentCode).length :=
      List.length_pos.mpr h
    simp [Server.getCodeContext, hpos]

/-- Witness for C8: snippet tokens `fetch, header, json` against query
tokens `fetch, json, array` give `"Common patterns: fetch, json"`. -/
theorem getCodeContext_spec_w :
    Server.commonTokens "fetch header json" "fetch json array" ≠ [] ∧
      Server.getCodeContext "fetch header json" "fetch json array" =
        "Common patterns: fetch, json" :=
  ⟨by decide,
    ((getCodeContext_spec "fetch header json" "fetch json array").2 (by decide)).trans
      (by decide)⟩

/-- C2: the suggestion ranker returns at most 5 suggestions, and every
returned suggestion's confidence strictly exceeds `0.3`. -/
theorem analyzeSimilarity_bounds (currentCode : String) (snippets : List Snippet) :
    (Server.analyzeSimilarity currentCode snippets).length ≤ 5 ∧
      ∀ s ∈ Server.analyzeSimilarity currentCode snippets, (3 : ℚ) / 10 < s.confidence := by
  constructor
  · exact List.length_take_le 5 _
  · intro s hs
    have hs1 : s ∈ jsSortDesc (fun s => s.confidence)
        (Server.rankCandidates currentCode snippets) := List.mem_of_mem_take hs
    have hs2 : s ∈ Server.rankCandidates currentCode snippets :=
      (jsSortDesc_perm _ _).mem_iff.mp hs1
    rw [Server.rankCandidates, List.mem_filterMap] at hs2
    obtain ⟨snip, _, heq⟩ := hs2
    rw [← mkRat_three_tenths]
    dsimp only [] at heq
    split at heq
    · cases heq
      assumption
    · cases heq

/-- Witness for C2 at a concrete query and one-snippet corpus whose
returned suggestion has confidence `1 > 0.3`. -/
theorem analyzeSimilarity_bounds_w :
    (Server.analyzeSimilarity "alpha beta gamma" [snippetAlpha]).length ≤ 5 ∧
      (3 : ℚ) / 10 < sugAlpha.confidence :=
  ⟨(analyzeSimilarity_bounds "alpha beta gamma" [snippetAlpha]).1,
    (analyzeSimilarity_bounds "alpha beta gamma" [snippetAlpha]).2 sugAlpha (by decide)⟩

/-- C3: the ranker's output is the first 5 elements of the stable
descending-confidence sort of the filtered candidate list (truncation after
sorting); the output is sorted by descending confidence; and for every
confidence value, the sorted list restricted to that value equals the
candidate list restricted to it — equal-confidence suggestions keep the
corpus's relative order. -/
theorem analyzeSimilarity_sorted_stable (currentCode : String) (snippets : List Snippet) :
    Server.analyzeSimilarity currentCode snippets =
        (jsSortDesc (fun s => s.confidence)
          (Server.rankCandidates currentCode snippets)).take 5 ∧
      List.Sorted (fun a b : AISuggestion => b.confidence ≤ a.confidence)
        (Server.analyzeSimilarity currentCode snippets) ∧
      ∀ c : ℚ,
        ((jsSortDesc (fun s => s.confidence)
              (Server.rankCandidates currentCode snippets)).filter
            fun s => decide (s.confidence = c)) =
          (Server.rankCandidates currentCode snippets).filter
            fun s => decide (s.confidence = c) := by
  refine ⟨rfl, ?_, fun c => jsSortDesc_filter_eq _ c _⟩
  exact (jsSortDesc_sorted (fun s : AISuggestion => s.confidence) _).sublist
    (List.take_sublist 5 _)

/-- C6: every suggestion the ranker returns carries one of the three
reachable reason labels; the `"Some common elements"` else branch is never
present in the output. -/
theorem analyzeSimilarity_reason_reachable (currentCode : String) (snippets : List Snippet)
    (s : AISuggestion) (hs : s ∈ Server.analyzeSimilarity currentCode snippets) :
    s.reason ≠ "Some common elements" ∧
      s.reason ∈ ["Very similar implementation", "Similar logic and structure",
        "Related code patterns"] := by
  have hs1 : s ∈ jsSortDesc (fun s => s.confidence)
      (Server.rankCandidates currentCode snippets) := List.mem_of_mem_take hs
  have hs2 : s ∈ Server.rankCandidates currentCode snippets :=
    (jsSortDesc_perm _ _).mem_iff.mp hs1
  rw [Server.rankCandidates, List.mem_filterMap] at hs2
  obtain ⟨snip, _, heq⟩ := hs2
  dsimp only [] at heq
  split at heq
  · rename_i hgt
    rw [gt_iff_lt] at hgt
    cases heq
    dsimp only [Server.getSimilarityReason]
    split_ifs
    · exact ⟨by decide, by simp⟩
    · exact ⟨by decide, by simp⟩
    · exact ⟨by decide, by simp⟩
  · cases heq

/-- Witness for C6 at a concrete query and corpus. -/
theorem analyzeSimilarity_reason_reachable_w :
    sugAlpha.reason ≠ "Some common elements" ∧
      sugAlpha.reason ∈ ["Very similar implementation", "Similar logic and structure",
        "Related code patterns"] :=
  analyzeSimilarity_reason_reachable "alpha beta gamma" [snippetAlpha] sugAlpha (by decide)

/-- C10: the renderer's local fallback analysis returns at most 3
suggestions, each with confidence strictly above `0.3`, sorted by
descending confidence. -/
theorem performLocalAnalysis_bounds (code : String) (snippets : List Snippet) :
    (App.performLocalAnalysis code snippets).length ≤ 3 ∧
      (∀ s ∈ App.performLocalAnalysis code snippets, (3 : ℚ) / 10 < s.confidence) ∧
      List.Sorted (fun a b : AISuggestion => b.confidence ≤ a.confidence)
        (App.performLocalAnalysis code snippets) := by
  refine ⟨List.length_take_le 3 _, ?_, ?_⟩
  · intro s hs
    have hs1 : s ∈ jsSortDesc (fun s => s.confidence)
        (App.localCandidates code snippets) := List.mem_of_mem_take hs
    have hs2 : s ∈ App.localCandidates code snippets :=
      (jsSortDesc_perm _ _).mem_iff.mp hs1
    rw [App.localCandidates, List.mem_filterMap] at hs2
    obtain ⟨snip, _, heq⟩ := hs2
    rw [← mkRat_three_tenths]
    dsimp only [] at heq
    split at heq
    · cases heq
      assumption
    · cases heq
  · exact (jsSortDesc_sorted (fun s : AISuggestion => s.confidence) _).sublist
      (List.take_sublist 3 _)

/-- Witness for C10 at a concrete query and one-snippet cache. -/
theorem performLocalAnalysis_bounds_w :
    (App.performLocalAnalysis "alpha beta gamma" [snippetAlpha]).length ≤ 3 ∧
      (3 : ℚ) / 10 < sugAlphaApp.confidence :=
  ⟨(performLocalAnalysis_bounds "alpha beta gamma" [snippetAlpha]).1,
    (performLocalAnalysis_bounds "alpha beta gamma" [snippetAlpha]).2.1 sugAlphaApp
      (by decide)⟩

/-- C4: `"const x = 1;"` and `"const   x=2;"` produce the same normalized
fingerprint, so whenever a snippet storing the latter is in the corpus
cache the duplicate guard declares the former a duplicate at the
exact-fingerprint stage, whatever the server fallback would say. -/
theorem generateCodeHash_const_example (cache : List Snippet)
    (hmem : ∃ snip ∈ cache, snip.code = "const   x=2;") (server : Bool) :
    Ext.generateCodeHash "const x = 1;" = Ext.generateCodeHash "const   x=2;" ∧
      Ext.isCodeAlreadyInVault "const x = 1;" cache server = true := by
  have hh : Ext.generateCodeHash "const x = 1;" = Ext.generateCodeHash "const   x=2;" := by
    decide
  refine ⟨hh, ?_⟩
  obtain ⟨snip, hs, hcode⟩ := hmem
  have hhit : Ext.cacheHit "const x = 1;" cache = true := by
    refine List.any_eq_true.mpr ⟨snip, hs, ?_⟩
    rw [hcode]
    simp [hh]
  simp [Ext.isCodeAlreadyInVault, hhit]

/-- Witness for C4 with the one-snippet cache `[snippetConstX]`. -/
theorem generateCodeHash_const_example_w :
    Ext.generateCodeHash "const x = 1;" = Ext.generateCodeHash "const   x=2;" ∧
      Ext.isCodeAlreadyInVault "const x = 1;" [snippetConstX] false = true :=
  generateCodeHash_const_example [snippetConstX]
    ⟨snippetConstX, List.mem_singleton.mpr rfl, rfl⟩ false

/-- C9: the pre-save `isDuplicateCode(code)` check compares the raw
candidate code against stored hash strings, so it is `false` for any
candidate not literally equal to a stored hash, and the capture flow can
never stop at the pre-save check for such a candidate — recent-duplicate
suppression can only come from the hash check inside
`saveSnippetToVault`. -/
theorem isDuplicateCode_raw_code (code : String) (hashes : List String)
    (hne : code ∉ hashes) :
    Ext.isDuplicateCode code hashes = false ∧
      ∀ (cache : List Snippet) (server : Bool) (recent : List (String × Nat)) (now : Nat),
        Ext.activeHashes recent now = hashes →
        (Ext.submit code cache server recent now).1 ≠ Ext.CaptureOutcome.recentPre := by
  have hdup : Ext.isDuplicateCode code hashes = false := by
    simp [Ext.isDuplicateCode, hne]
  refine ⟨hdup, ?_⟩
  intro cache server recent now hact
  rw [Ext.submit]
  split_ifs with h1 h2
  · simp
  · simp_all
  · dsimp only []
    split <;> simp

/-- Witness for C9: `"const y = 3;"` is not a stored hash string, so the
pre-save check lets it through. -/
theorem isDuplicateCode_raw_code_w :
    Ext.isDuplicateCode "const y = 3;" ["1abc2"] = false ∧
      (Ext.submit "const y = 3;" [] false [("1abc2", 5)] 0).1 ≠
        Ext.CaptureOutcome.recentPre :=
  ⟨(isDuplicateCode_raw_code "const y = 3;" ["1abc2"] (by decide)).1,
    (isDuplicateCode_raw_code "const y = 3;" ["1abc2"] (by decide)).2
      [] false [("1abc2", 5)] 0 (by decide)⟩

/-- C5: once a candidate passes the guard and is captured at time `t1`
(its fingerprint entering the recently-processed set), resubmitting the
same candidate against the same — not yet updated — corpus before the
fixed 60000 ms expiry yields a recent-duplicate verdict, and resubmitting
at or after the expiry is no longer suppressed and saves again. -/
theorem submit_ttl_idempotence (code : String) (cache : List Snippet) (server : Bool)
    (t1 t2 : Nat)
    (hsave : (Ext.submit code cache server [] t1).1 = Ext.CaptureOutcome.saved) :
    (t2 < t1 + 60000 →
        ((Ext.submit code cache server (Ext.submit code cache server [] t1).2 t2).1).isRecentDup
          = true) ∧
      (t1 + 60000 ≤ t2 →
        (Ext.submit code cache server (Ext.submit code cache server [] t1).2 t2).1
          = Ext.CaptureOutcome.saved) := by
  have hv : Ext.isCodeAlreadyInVault code cache server = false := by
    by_cases h : Ext.isCodeAlreadyInVault code cache server = true
    · rw [Ext.submit, if_pos h] at hsave
      cases hsave
    · simpa using h
  have hstate : (Ext.submit code cache server [] t1).2 =
      [(Ext.generateCodeHash code, t1 + 60000)] := by
    rw [Ext.submit, if_neg (by simp [hv])]
    simp [Ext.isDuplicateCode, Ext.activeHashes]
  constructor
  · intro ht
    rw [hstate]
    have hact : Ext.activeHashes [(Ext.generateCodeHash code, t1 + 60000)] t2 =
        [Ext.generateCodeHash code] := by
      simp [Ext.activeHashes, ht]
    rw [Ext.submit, if_neg (by simp [hv]), hact]
    by_cases hch : code = Ext.generateCodeHash code
    · rw [if_pos (by simp [Ext.isDuplicateCode, ← hch])]
      rfl
    · rw [if_neg (by simp [Ext.isDuplicateCode, hch]),
        if_pos (by simp [Ext.isDuplicateCode])]
      rfl
  · intro ht
    rw [hstate]
    have hact : Ext.activeHashes [(Ext.generateCodeHash code, t1 + 60000)] t2 = [] := by
      simp [Ext.activeHashes, Nat.not_lt.mpr ht]
    rw [Ext.submit, if_neg (by simp [hv]), hact]
    simp [Ext.isDuplicateCode]

/-- Witness for C5: a concrete capture at `t1 = 0`, resubmitted at
`t2 = 1` (suppressed as recently processed) and at `t2 = 60000` (saved
again). -/
theorem submit_ttl_idempotence_w :
    (Ext.submit "alpha beta gamma delta;" [] false [] 0).1 = Ext.CaptureOutcome.saved ∧
      ((Ext.submit "alpha beta gamma delta;" [] false
            (Ext.submit "alpha beta gamma delta;" [] false [] 0).2 1).1).isRecentDup
        = true ∧
      (Ext.submit "alpha beta gamma delta;" [] false
          (Ext.submit "alpha beta gamma delta;" [] false [] 0).2 60000).1
        = Ext.CaptureOutcome.saved :=
  ⟨by decide,
    (submit_ttl_idempotence "alpha beta gamma delta;" [] false 0 1 (by decide)).1
      (by decide),
    (submit_ttl_idempotence "alpha beta gamma delta;" [] false 0 60000 (by decide)).2
      (by decide)⟩

/-- C1 (divergence witness): on a candidate of 10 lines, 9 of which are
shared with a stored snippet, the spec's stage-2 line-set Jaccard is
`0.9 > 0.8`, so the spec declares a duplicate at stage 2; the code's
`calculateCodeSimilarity`, which has already collapsed newlines before
splitting on them, sees a single (differing) line per side, returns `0`,
and the guard does not declare a duplicate.  The split of the normalized
candidate indeed has exactly one line. -/
theorem nearDuplicate_newline_collapse :
    SpecModel.specLineSimilarity candTen snipNine = mkRat 9 10 ∧
      mkRat 8 10 < SpecModel.specLineSimilarity candTen snipNine ∧
      (jsSplit (Ext.normalizeCode candTen) fun c => c == '\n').length = 1 ∧
      Ext.calculateCodeSimilarity candTen snipNine = 0 ∧
      Ext.isCodeAlreadyInVault candTen [snippetNine] false = false :=
  ⟨by decide, by decide, by decide, by decide, by decide⟩
